import Mathlib

/-!
# Verification of the EnergyZero price-fetch pipeline

Shallow embedding of `scripts/fetch_energyzero_data.py` and
`scripts/fetch_energyzero_rest.py` from the `thuisbatterij-simulatie`
repository, together with proofs and refutations of the specified
properties.

Modelling conventions:
* An `Instant` (a UTC timestamp, `timerange.start_including` resp.
  `readingDate` in the scripts) is modelled as an `Int`.
* The time-zone projection performed by Python's
  `zoneinfo.ZoneInfo('Europe/Amsterdam')` (`astimezone` + `strftime`)
  is an external library capability; it is modelled as an arbitrary
  function `loc : Int → LocalTs` giving, for each instant, the local
  calendar year and the rendered local text.  All theorems quantify
  over `loc`; concrete test projections instantiate it in witnesses
  and counterexamples.
* Raw prices are modelled as exact rationals; Python's `round(x, 1)`
  (round-half-to-even to one decimal) is `roundTo1`.
* Printing is ignored; everything else in the per-year pipeline and
  the batch driver is modelled step by step.
-/

/-- The local wall-clock rendering of an instant: its local calendar
year and its formatted text (`'%Y-%m-%dT%H:%M:%S'`). -/
structure LocalTs where
  year : Int
  text : String
deriving DecidableEq

/-- One raw record as returned by the external service: a UTC instant
(`timerange.start_including` / `readingDate`) and a price in EUR/kWh. -/
structure RawRecord where
  utc : Int
  price : Rat
deriving DecidableEq

/-- One output entry (`{'timestamp': ..., 'price': ...}`).  The field
`utc` is the underlying instant of the record the entry was created
from; the scripts do not serialise it, but it is carried here as a
specification field so that instant-level properties can be stated. -/
structure PricePoint where
  utc : Int
  timestamp : String
  price : Rat
deriving DecidableEq

/-- Python's `round` to the nearest integer, ties to even. -/
def roundHalfEven (x : Rat) : Int :=
  if x - (x.floor : Rat) < 1/2 then x.floor
  else if 1/2 < x - (x.floor : Rat) then x.floor + 1
  else if x.floor % 2 = 0 then x.floor else x.floor + 1

/-- `round(x, 1)`: round to one decimal place, ties to even. -/
def roundTo1 (x : Rat) : Rat := (roundHalfEven (x * 10) : Rat) / 10

/-- Conversion of one kept raw record into an output entry:
`timestamp_str = local_ts.strftime(...)`,
`price_eur_mwh = price * 1000`, `round(price_eur_mwh, 1)`. -/
def toPoint (loc : Int → LocalTs) (r : RawRecord) : PricePoint :=
  { utc := r.utc, timestamp := (loc r.utc).text, price := roundTo1 (r.price * 1000) }

/-- The year filter of both scripts: keep a record iff the local
calendar year of its instant equals the target year. -/
def inYear (loc : Int → LocalTs) (year : Int) (r : RawRecord) : Bool :=
  (loc r.utc).year == year

/-- The per-window record loop of `fetch_year`
(`fetch_energyzero_data.py`, lines 88–119): for each raw record,
project to local time, skip it when the local year differs from the
target year, skip it when its UTC instant equals `last_utc` (the
instant of the most recently kept record of this window), otherwise
emit the converted entry and update `last_utc`. -/
def processWindow (loc : Int → LocalTs) (year : Int) :
    Option Int → List RawRecord → List PricePoint
  | _, [] => []
  | lastUtc, r :: rs =>
    if (loc r.utc).year ≠ year then
      processWindow loc year lastUtc rs
    else if lastUtc = some r.utc then
      processWindow loc year lastUtc rs
    else
      toPoint loc r :: processWindow loc year (some r.utc) rs

/-- The window loop of `fetch_year` (lines 62–127): windows are fetched
sequentially; each may fail (`None`); the first failure makes the whole
year return `None` (`return None` in the `except` branch); otherwise the
per-window results are concatenated in window order, with `last_utc`
reset to `None` at the start of every window (line 88). -/
def fetchWindows (loc : Int → LocalTs) (year : Int) :
    List (Option (List RawRecord)) → Option (List PricePoint)
  | [] => some []
  | none :: _ => none
  | some w :: rest =>
    match fetchWindows loc year rest with
    | none => none
    | some ps => some (processWindow loc year none w ++ ps)

/-- The produced yearly artifact (lines 162–166):
`{'year': year, 'count': len(prices), 'prices': prices}`. -/
structure YearSeries where
  year : Int
  count : Nat
  prices : List PricePoint
deriving DecidableEq

/-- Assembly of the output record: `count = len(prices)`. -/
def mkSeries (year : Int) (ps : List PricePoint) : YearSeries :=
  { year := year, count := ps.length, prices := ps }

/-- Leap-year test of both scripts (line 151):
`(year % 4 == 0 and year % 100 != 0) or (year % 400 == 0)`. -/
def isLeap (y : Int) : Bool :=
  (y % 4 == 0 && y % 100 != 0) || (y % 400 == 0)

/-- `expected_days * 24` with `expected_days = 366 if is_leap else 365`
(lines 151–155). -/
def expectedCount (y : Int) : Int :=
  (if isLeap y then 366 else 365) * 24

/-- The count validation (lines 157–160): the series is returned
unchanged; the only observable outcome of the comparison is whether the
mismatch warning is printed (`true` = warning). -/
def validate (y : Int) (s : YearSeries) : YearSeries × Bool :=
  (s, (s.count : Int) != expectedCount y)

/-- `fetch_year` end to end for one year, over an abstract fetch result
per planned window: `None` on any window failure, otherwise the
assembled and validated series (validation never alters it). -/
def runYear (loc : Int → LocalTs) (year : Int)
    (ws : List (Option (List RawRecord))) : Option YearSeries :=
  match fetchWindows loc year ws with
  | none => none
  | some ps => some (validate year (mkSeries year ps)).1

/-- Number of civil days in the target year, used to place
`end_of_year = date(year, 12, 31)`: day-of-year ordinal 1 is Jan 1 and
ordinal `daysInYear y` is Dec 31. -/
def daysInYear (y : Int) : Nat := if isLeap y then 366 else 365

/-- The window loop bounds of `fetch_year` (lines 64–74 and 126),
expressed on day-of-year ordinals (date arithmetic on Python ordinals
is translation invariant, so Jan 1 = 1):
`while current <= end: e = min(current + 7, end); emit (current, e);
current = e + 1`.  `fuel` bounds the iteration count; `daysInYear`
iterations always suffice since `current` strictly increases. -/
def planFuel : Nat → Nat → Nat → List (Nat × Nat)
  | 0, _, _ => []
  | fuel + 1, current, endOfYear =>
    if current ≤ endOfYear then
      let e := min (current + 7) endOfYear
      (current, e) :: planFuel fuel (e + 1) endOfYear
    else []

/-- The sequence of query windows issued for a year, as pairs of
inclusive day-of-year ordinals (1 = Jan 1). -/
def planWindows (y : Int) : List (Nat × Nat) :=
  planFuel (daysInYear y) 1 (daysInYear y)

/-- Ordering of output entries by their rendered local text, the sort
key `lambda p: p['timestamp']` of `fetch_energyzero_rest.py` line 121. -/
def tsLe (a b : PricePoint) : Prop := a.timestamp ≤ b.timestamp

instance : DecidableRel tsLe :=
  fun a b => String.decidableLE a.timestamp b.timestamp

instance : IsTotal PricePoint tsLe :=
  ⟨fun a b => le_total a.timestamp b.timestamp⟩

instance : IsTrans PricePoint tsLe :=
  ⟨fun _ _ _ h1 h2 => le_trans h1 h2⟩

/-- `prices.sort(key=lambda p: p['timestamp'])`: Python's `list.sort`
is a stable sort on the key; it is modelled by stable insertion sort
on `tsLe`. -/
def sortByTimestamp (ps : List PricePoint) : List PricePoint :=
  List.insertionSort tsLe ps

/-- The whole-year REST pipeline of `fetch_year_rest`
(`fetch_energyzero_rest.py`, lines 93–121): one window, no
deduplication; filter to the target local year, convert each kept
record, then sort by timestamp text. -/
def fetchYearRest (loc : Int → LocalTs) (year : Int)
    (raw : List RawRecord) : List PricePoint :=
  sortByTimestamp ((raw.filter (inYear loc year)).map (toPoint loc))

/-- `for year in sorted(years)` (line 214 resp. 215): the per-year
pipeline runs in ascending year order.  Python's `sorted` is stable;
on integers it is modelled by insertion sort on `≤`. -/
def processOrder (years : List Int) : List Int :=
  List.insertionSort (fun a b => a ≤ b) years

/-- The per-year loop of `main` (lines 214–231): for each year in
sorted order, run the pipeline; on `None` log and continue with no
write, otherwise write the file `prices_{year}.json`.  The result is
the list of (year, series) files written, in write order. -/
def runBatch (fetch : Int → Option YearSeries) (years : List Int) :
    List (Int × YearSeries) :=
  (processOrder years).filterMap (fun y => (fetch y).map (fun s => (y, s)))

/-- Outcome of one invocation of `main`. -/
inductive BatchResult where
  | usageError
  | parseError
  | ran (writes : List (Int × YearSeries))
deriving DecidableEq

/-- The argument loop of `main` (lines 180–189): each argument is
parsed with Python's `int` (an external capability, modelled by the
parameter `parse`); the first unparseable argument exits the process
(`sys.exit(1)`) before any fetch; the below-floor year check only
prints a warning. -/
def parseYearArgs (parse : String → Option Int) :
    List String → Option (List Int)
  | [] => some []
  | a :: rest =>
    match parse a with
    | none => none
    | some y =>
      match parseYearArgs parse rest with
      | none => none
      | some ys => some (y :: ys)

/-- `main` (lines 169–231): usage exit on an empty argument list,
fatal parse error on any unparseable argument (before any fetch),
otherwise the per-year batch loop.  Filesystem preconditions (output
directory existence) and printing are outside the model. -/
def mainModel (parse : String → Option Int)
    (fetch : Int → Option YearSeries) (args : List String) : BatchResult :=
  if args.isEmpty then .usageError
  else
    match parseYearArgs parse args with
    | none => .parseError
    | some years =>
      if years.isEmpty then .usageError
      else .ran (runBatch fetch years)

/-- Test time-zone projection: every instant falls in local year 2023,
with distinct rendered texts. -/
def locDistinct : Int → LocalTs :=
  fun t => { year := 2023, text := toString t }

/-- Test time-zone projection with a fall-back transition: the two
instants 1 and 2 render to the same local text (the repeated 02:00
local hour of a clocks-back day), all in local year 2023. -/
def locFallBack : Int → LocalTs :=
  fun t =>
    if t = 1 ∨ t = 2 then { year := 2023, text := "2023-10-29T02:00:00" }
    else { year := 2023, text := toString t }

/-! ## C1: window planning -/

/-- C1 (code evaluation at the failing input): for year 2023 the code
produces the windows `[Jan 1–Jan 8], [Jan 9–Jan 16], …` — the second
window starts the day AFTER the first window's end (`current_date =
end_date + 1`, line 126), so consecutive windows share no boundary
date, contradicting the claimed 1-day overlap (and the script's own
docstring); each window spans at most 8 days and the final window is
clipped to Dec 31 (day-of-year 365). -/
theorem planWindows_2023_no_overlap :
    (planWindows 2023).take 2 = [(1, 8), (9, 16)] ∧
    (planWindows 2023).take 2 ≠ [(1, 8), (8, 15)] ∧
    (planWindows 2023).getLast? = some (361, 365) ∧
    (planWindows 2023).all (fun w => decide (w.2 + 1 ≤ w.1 + 8)) = true := by
  exact ⟨by decide, by decide, by decide, by decide⟩

/-! ## C7: expected-count validation -/

/-- C7: the validator computes
`expected_count = (366 if leap year else 365) * 24`, so `8760` for 2023
and `8784` for 2024; the comparison against the series count produces
only a warning flag (set exactly on mismatch), and the series itself is
returned unchanged and persisted as-is. -/
theorem validate_warning_only :
    (∀ y s, (validate y s).1 = s) ∧
    (∀ y s, (validate y s).2 = true ↔ (s.count : Int) ≠ expectedCount y) ∧
    (∀ y, expectedCount y = (if isLeap y then 366 else 365) * 24) ∧
    expectedCount 2023 = 8760 ∧ expectedCount 2024 = 8784 := by
  refine ⟨fun y s => rfl, fun y s => ?_, fun y => rfl, by decide, by decide⟩
  simp [validate, bne_iff_ne]

/-! ## Helper lemmas about the normalizer -/

/-- Every emitted entry comes from some raw record of the window that
passes the local-year filter, and is exactly its conversion. -/
theorem mem_processWindow (loc : Int → LocalTs) (year : Int) :
    ∀ (w : List RawRecord) (last : Option Int) (p : PricePoint),
      p ∈ processWindow loc year last w →
      ∃ r, r ∈ w ∧ inYear loc year r = true ∧ p = toPoint loc r := by
  intro w
  induction w with
  | nil => intro last p h; simp [processWindow] at h
  | cons r rs ih =>
    intro last p h
    by_cases hy : (loc r.utc).year = year
    · by_cases hd : last = some r.utc
      · rw [processWindow, if_neg (not_not_intro hy), if_pos hd] at h
        obtain ⟨r', hr', hy', hp⟩ := ih last p h
        exact ⟨r', .tail _ hr', hy', hp⟩
      · rw [processWindow, if_neg (not_not_intro hy), if_neg hd] at h
        rcases List.mem_cons.mp h with hp | hp
        · exact ⟨r, .head _, by simp [inYear, hy], hp⟩
        · obtain ⟨r', hr', hy', hp⟩ := ih _ p hp
          exact ⟨r', .tail _ hr', hy', hp⟩
    · rw [processWindow, if_pos hy] at h
      obtain ⟨r', hr', hy', hp⟩ := ih last p h
      exact ⟨r', .tail _ hr', hy', hp⟩

/-- The dedup guarantee the code actually provides: within one window,
consecutive kept entries always have distinct instants, and the first
kept entry's instant differs from the incoming `last_utc`. -/
theorem processWindow_chain (loc : Int → LocalTs) (year : Int) :
    ∀ (w : List RawRecord) (last : Option Int),
      List.Chain' (fun a b => a.utc ≠ b.utc) (processWindow loc year last w) ∧
      ∀ p, (processWindow loc year last w).head? = some p → last ≠ some p.utc := by
  intro w
  induction w with
  | nil => intro last; simp [processWindow]
  | cons r rs ih =>
    intro last
    by_cases hy : (loc r.utc).year = year
    · by_cases hd : last = some r.utc
      · rw [processWindow, if_neg (not_not_intro hy), if_pos hd]
        refine ⟨(ih last).1, fun p hp => ?_⟩
        exact (ih last).2 p hp
      · rw [processWindow, if_neg (not_not_intro hy), if_neg hd]
        constructor
        · refine List.chain'_cons'.mpr ⟨fun q hq => ?_, (ih (some r.utc)).1⟩
          have := (ih (some r.utc)).2 q hq
          simp only [toPoint]
          intro he
          exact this (by rw [he])
        · intro p hp
          simp only [List.head?_cons, Option.some.injEq] at hp
          subst hp
          simpa [toPoint] using hd
    · rw [processWindow, if_pos hy]
      exact ih last

/-- When all in-year records of a window have pairwise-distinct
instants (and none equals the incoming `last_utc`), the adjacent-dedup
check never fires: the window's output is exactly the converted
year-filtered records. -/
theorem processWindow_eq_of_nodup (loc : Int → LocalTs) (year : Int) :
    ∀ (w : List RawRecord) (last : Option Int),
      ((w.filter (inYear loc year)).map RawRecord.utc).Nodup →
      (∀ u, last = some u → u ∉ (w.filter (inYear loc year)).map RawRecord.utc) →
      processWindow loc year last w =
        (w.filter (inYear loc year)).map (toPoint loc) := by
  intro w
  induction w with
  | nil => intro last _ _; simp [processWindow]
  | cons r rs ih =>
    intro last hnd hlast
    by_cases hy : (loc r.utc).year = year
    · have hyb : inYear loc year r = true := by simp [inYear, hy]
      rw [List.filter_cons_of_pos hyb] at hnd hlast ⊢
      simp only [List.map_cons, List.nodup_cons] at hnd
      have hd : ¬ last = some r.utc := by
        intro he
        exact hlast r.utc he (by simp)
      rw [processWindow, if_neg (not_not_intro hy), if_neg hd, List.map_cons]
      congr 1
      refine ih (some r.utc) hnd.2 ?_
      intro u hu
      rw [Option.some.injEq] at hu
      subst hu
      exact hnd.1
    · have hyb : inYear loc year r = false := by simp [inYear, hy]
      rw [List.filter_cons_of_neg (by simp [hyb])] at hnd hlast ⊢
      rw [processWindow, if_pos hy]
      exact ih last hnd hlast

/-- A year's window loop returns `None` as soon as any window fetch
fails. -/
theorem fetchWindows_eq_none (loc : Int → LocalTs) (year : Int) :
    ∀ (ws : List (Option (List RawRecord))), none ∈ ws →
      fetchWindows loc year ws = none := by
  intro ws
  induction ws with
  | nil => intro h; cases h
  | cons w rest ih =>
    intro h
    match w with
    | none => rfl
    | some l =>
      rcases List.mem_cons.mp h with h' | h'
      · cases h'
      · rw [fetchWindows, ih h']

/-- When every window fetch succeeds, the year's result is the
concatenation of the per-window normalizations, in window order. -/
theorem fetchWindows_map_some (loc : Int → LocalTs) (year : Int) :
    ∀ (ws : List (List RawRecord)),
      fetchWindows loc year (ws.map some) =
        some (ws.flatMap (fun w => processWindow loc year none w)) := by
  intro ws
  induction ws with
  | nil => rfl
  | cons w rest ih =>
    rw [List.map_cons, fetchWindows, ih, List.flatMap_cons]

/-- Under pairwise-distinct instants of all in-year records, nothing is
ever dropped by deduplication: the merged output is exactly the
converted year-filtered records of all windows in order. -/
theorem flatMap_processWindow_eq (loc : Int → LocalTs) (year : Int) :
    ∀ (ws : List (List RawRecord)),
      ((ws.flatMap (fun w => w.filter (inYear loc year))).map RawRecord.utc).Nodup →
      ws.flatMap (fun w => processWindow loc year none w) =
        (ws.flatMap (fun w => w.filter (inYear loc year))).map (toPoint loc) := by
  intro ws
  induction ws with
  | nil => intro _; rfl
  | cons w rest ih =>
    intro hnd
    rw [List.flatMap_cons, List.map_append] at hnd
    rcases List.nodup_append.mp hnd with ⟨h1, h2, _⟩
    rw [List.flatMap_cons, List.flatMap_cons, List.map_append]
    rw [processWindow_eq_of_nodup loc year w none h1 (fun u hu => by cases hu), ih h2]

/-! ## C2: deduplication -/

/-- C2 (counterexample): the dedup check compares each record only to
`last_utc`, the instant of the most recently kept record, so a record
whose instant equals an earlier-but-not-previous kept record is NOT
dropped: feeding one window with instants `[1, 2, 1]` (all in the
target local year) produces a series whose kept instants are `[1, 2, 1]`
— two kept entries share an Instant, refuting the claim. -/
theorem dedup_not_global_counterexample :
    (runYear locDistinct 2023 [some [⟨1, 1⟩, ⟨2, 1⟩, ⟨1, 1⟩]]).map
        (fun s => s.prices.map PricePoint.utc) = some [1, 2, 1] ∧
    ¬ ([1, 2, 1] : List Int).Nodup := by
  exact ⟨by decide, by decide⟩

/-- C2 (amended): a raw record is dropped as a duplicate iff its
Instant equals that of the immediately preceding kept record of the
same window (`last_utc`, reset per window) — so consecutive kept
entries never share an Instant, and whenever the in-year records of a
window have pairwise-distinct Instants (in particular for the
fall-back pair, whose local texts are equal but whose Instants differ)
nothing at all is dropped; global Instant-uniqueness is NOT
guaranteed. -/
theorem dedup_drops_adjacent_only :
    (∀ (loc : Int → LocalTs) (year : Int) (w : List RawRecord) (last : Option Int),
        List.Chain' (fun a b => a.utc ≠ b.utc) (processWindow loc year last w)) ∧
    (∀ (loc : Int → LocalTs) (year : Int) (w : List RawRecord),
        ((w.filter (inYear loc year)).map RawRecord.utc).Nodup →
        processWindow loc year none w =
          (w.filter (inYear loc year)).map (toPoint loc)) :=
  ⟨fun loc year w last => (processWindow_chain loc year w last).1,
   fun loc year w h =>
     processWindow_eq_of_nodup loc year w none h (fun _ hu => by cases hu)⟩

/-- Witness for `dedup_drops_adjacent_only`: a clocks-back window with
two records of equal local text but distinct Instants keeps both. -/
theorem dedup_drops_adjacent_only_witness :
    List.Chain' (fun a b => a.utc ≠ b.utc)
      (processWindow locFallBack 2023 none [⟨1, 1⟩, ⟨2, 2⟩]) ∧
    processWindow locFallBack 2023 none [⟨1, 1⟩, ⟨2, 2⟩] =
      (([⟨1, 1⟩, ⟨2, 2⟩] : List RawRecord).filter (inYear locFallBack 2023)).map
        (toPoint locFallBack) :=
  ⟨dedup_drops_adjacent_only.1 locFallBack 2023 [⟨1, 1⟩, ⟨2, 2⟩] none,
   dedup_drops_adjacent_only.2 locFallBack 2023 [⟨1, 1⟩, ⟨2, 2⟩] (by decide)⟩

/-! ## C3: output ordering -/

/-- C3 (counterexample): the REST variant sorts by timestamp text only
(`key=lambda p: p['timestamp']`) and Python's sort is stable, so two
fall-back entries with equal local text stay in ARRIVAL order: arriving
with the later Instant first (`[2, 1]`), they are emitted with the
later Instant first — not ordered by Instant ascending, refuting the
claimed arrival-order independence. -/
theorem rest_sort_counterexample :
    (fetchYearRest locFallBack 2023 [⟨2, 1⟩, ⟨1, 2⟩]).map PricePoint.utc = [2, 1] ∧
    (fetchYearRest locFallBack 2023 [⟨2, 1⟩, ⟨1, 2⟩]).map PricePoint.timestamp =
      ["2023-10-29T02:00:00", "2023-10-29T02:00:00"] ∧
    ¬ List.Sorted (fun a b : Int => a ≤ b) [2, 1] := by
  have h1 : ([⟨2, 1⟩, ⟨1, 2⟩] : List RawRecord).filter (inYear locFallBack 2023) =
      [⟨2, 1⟩, ⟨1, 2⟩] := by decide
  have h2 : fetchYearRest locFallBack 2023 [⟨2, 1⟩, ⟨1, 2⟩] =
      [toPoint locFallBack ⟨2, 1⟩, toPoint locFallBack ⟨1, 2⟩] := by
    rw [fetchYearRest, h1]
    rw [show ([⟨2, 1⟩, ⟨1, 2⟩] : List RawRecord).map (toPoint locFallBack) =
        [toPoint locFallBack ⟨2, 1⟩, toPoint locFallBack ⟨1, 2⟩] from rfl]
    rw [sortByTimestamp, List.insertionSort, List.insertionSort, List.insertionSort,
      List.orderedInsert, List.orderedInsert_of_le]
    show (toPoint locFallBack ⟨2, 1⟩).timestamp ≤ (toPoint locFallBack ⟨1, 2⟩).timestamp
    have he : (toPoint locFallBack ⟨2, 1⟩).timestamp =
        (toPoint locFallBack ⟨1, 2⟩).timestamp := by
      simp [toPoint, locFallBack]
    rw [he]
  refine ⟨by rw [h2]; rfl, by rw [h2]; simp [toPoint, locFallBack], by decide⟩

/-- C3 (amended): the REST variant's output is sorted ascending by the
timestamp text and is a permutation of the converted year-filtered
records; entries with equal text (the fall-back pair) remain in
arrival order — they are in Instant order only when they arrive in
Instant order.  (`fetch_energyzero_data.py` performs no sort at all:
its output is pure arrival order, `processWindow` concatenation.) -/
theorem rest_sorted_by_text (loc : Int → LocalTs) (year : Int) (raw : List RawRecord) :
    List.Sorted tsLe (fetchYearRest loc year raw) ∧
    (fetchYearRest loc year raw).Perm
      ((raw.filter (inYear loc year)).map (toPoint loc)) :=
  ⟨List.sorted_insertionSort tsLe _, List.perm_insertionSort tsLe _⟩

/-! ## C4: count invariant -/

/-- C4 (counterexample): the same in-year record fetched in two
different windows is kept twice (`last_utc` is reset per window), so
`count = 2` while the raw records contain exactly 1 distinct Instant —
`count` does not in general equal the number of distinct Instants. -/
theorem count_distinct_counterexample :
    (runYear locDistinct 2023 [some [⟨5, 1⟩], some [⟨5, 1⟩]]).map YearSeries.count =
      some 2 ∧
    (([⟨5, 1⟩, ⟨5, 1⟩] : List RawRecord).map RawRecord.utc).dedup = [5] ∧
    (2 : Nat) ≠ 1 :=
  ⟨by decide, by decide, by decide⟩

/-- C4 (amended): every produced series satisfies
`count = prices.length` unconditionally; `count` equals the number of
distinct Instants among the in-year raw records exactly when those
Instants are pairwise distinct across the whole fetch — otherwise
repeated Instants in different windows (or non-adjacent in one window)
are all kept and counted. -/
theorem count_invariant :
    (∀ (loc : Int → LocalTs) (year : Int) (ws : List (Option (List RawRecord)))
        (s : YearSeries), runYear loc year ws = some s →
      s.count = s.prices.length) ∧
    (∀ (loc : Int → LocalTs) (year : Int) (ws : List (List RawRecord)),
        ((ws.flatMap (fun w => w.filter (inYear loc year))).map RawRecord.utc).Nodup →
        ∀ s, runYear loc year (ws.map some) = some s →
          s.count =
            ((ws.flatMap (fun w => w.filter (inYear loc year))).map
              RawRecord.utc).dedup.length) := by
  constructor
  · intro loc year ws s h
    rw [runYear] at h
    match hw : fetchWindows loc year ws with
    | none => rw [hw] at h; cases h
    | some ps =>
      rw [hw] at h
      cases h
      rfl
  · intro loc year ws hnd s h
    rw [runYear, fetchWindows_map_some, flatMap_processWindow_eq loc year ws hnd] at h
    cases h
    rw [List.Nodup.dedup hnd]
    simp [validate, mkSeries]

/-- Witness for `count_invariant`: a two-window fetch with distinct
in-year instants has `count = prices.length = 2` distinct instants. -/
theorem count_invariant_witness :
    ((runYear locDistinct 2023 [some [⟨1, 1⟩], some [⟨2, 1⟩]] = some
        (mkSeries 2023 [toPoint locDistinct ⟨1, 1⟩, toPoint locDistinct ⟨2, 1⟩])) ∧
      (mkSeries 2023 [toPoint locDistinct ⟨1, 1⟩, toPoint locDistinct ⟨2, 1⟩]).count =
        (mkSeries 2023 [toPoint locDistinct ⟨1, 1⟩,
          toPoint locDistinct ⟨2, 1⟩]).prices.length) ∧
    (mkSeries 2023 [toPoint locDistinct ⟨1, 1⟩, toPoint locDistinct ⟨2, 1⟩]).count =
      (([[⟨1, 1⟩], [⟨2, 1⟩]].flatMap
          (fun w => w.filter (inYear locDistinct 2023))).map RawRecord.utc).dedup.length := by
  have hrun : runYear locDistinct 2023 [some [⟨1, 1⟩], some [⟨2, 1⟩]] = some
      (mkSeries 2023 [toPoint locDistinct ⟨1, 1⟩, toPoint locDistinct ⟨2, 1⟩]) := rfl
  refine ⟨⟨hrun, ?_⟩, ?_⟩
  · exact count_invariant.1 locDistinct 2023 [some [⟨1, 1⟩], some [⟨2, 1⟩]] _ hrun
  · exact count_invariant.2 locDistinct 2023 [[⟨1, 1⟩], [⟨2, 1⟩]] (by decide) _ hrun

/-! ## C5: per-year fault isolation -/

/-- C5: any window-fetch failure makes the whole year's pipeline return
`None`, in which case the batch driver writes no file for that year
(the write step only runs on a successful, validated result) and still
writes the file for every other requested year whose fetch
succeeded. -/
theorem fetch_failure_isolated :
    (∀ (loc : Int → LocalTs) (year : Int) (ws : List (Option (List RawRecord))),
        none ∈ ws → runYear loc year ws = none) ∧
    (∀ (fetch : Int → Option YearSeries) (years : List Int) (y : Int),
        fetch y = none → ∀ s, (y, s) ∉ runBatch fetch years) ∧
    (∀ (fetch : Int → Option YearSeries) (years : List Int) (y : Int) (s : YearSeries),
        y ∈ years → fetch y = some s → (y, s) ∈ runBatch fetch years) := by
  refine ⟨?_, ?_, ?_⟩
  · intro loc year ws h
    rw [runYear, fetchWindows_eq_none loc year ws h]
  · intro fetch years y hf s hmem
    rcases List.mem_filterMap.mp hmem with ⟨y', _, hsome⟩
    match hfy : fetch y' with
    | none => rw [hfy] at hsome; cases hsome
    | some s' =>
      rw [hfy] at hsome
      have hy : y' = y := congrArg Prod.fst (Option.some.inj hsome)
      rw [hy, hf] at hfy
      cases hfy
  · intro fetch years y s hy hf
    refine List.mem_filterMap.mpr ⟨y, ?_, by rw [hf]; rfl⟩
    exact ((List.perm_insertionSort _ years).mem_iff).mpr hy

/-- Witness for `fetch_failure_isolated`: with a failing second window,
year 2023 aborts; in a batch where 2023's fetch fails and 2024's
succeeds, no 2023 file is written and the 2024 file is. -/
theorem fetch_failure_isolated_witness :
    runYear locDistinct 2023 [some [⟨1, 1⟩], none] = none ∧
    (2023, mkSeries 2023 []) ∉
      runBatch (fun y => if y = 2024 then some (mkSeries 2024 []) else none)
        [2024, 2023] ∧
    (2024, mkSeries 2024 []) ∈
      runBatch (fun y => if y = 2024 then some (mkSeries 2024 []) else none)
        [2024, 2023] :=
  ⟨fetch_failure_isolated.1 locDistinct 2023 [some [⟨1, 1⟩], none] (by decide),
   fetch_failure_isolated.2.1 _ [2024, 2023] 2023 (by decide) (mkSeries 2023 []),
   fetch_failure_isolated.2.2 _ [2024, 2023] 2024 (mkSeries 2024 []) (by decide)
     (by decide)⟩

/-! ## C6: local-year filtering -/

/-- C6: a raw record's instant appears in the window's output iff the
LOCAL calendar year of its instant (its projection through `loc`, the
Europe/Amsterdam rendering) equals the target year — the filter
criterion is local time for every record, for every projection `loc`,
so a record inside the target year in UTC but outside it in local time
is dropped and vice versa kept.  (Instants of the in-year records are
assumed pairwise distinct so that the — separately analysed —
adjacent-duplicate check cannot also drop a record.) -/
theorem year_filter_is_local (loc : Int → LocalTs) (year : Int)
    (w : List RawRecord) (r : RawRecord)
    (hnd : ((w.filter (inYear loc year)).map RawRecord.utc).Nodup)
    (hr : r ∈ w) :
    r.utc ∈ (processWindow loc year none w).map PricePoint.utc ↔
      (loc r.utc).year = year := by
  constructor
  · intro h
    rcases List.mem_map.mp h with ⟨p, hp, hpu⟩
    obtain ⟨r', _, hy', hpr⟩ := mem_processWindow loc year w none p hp
    have hu : p.utc = r'.utc := by rw [hpr]; rfl
    rw [← hpu, hu]
    simpa [inYear] using hy'
  · intro h
    rw [processWindow_eq_of_nodup loc year w none hnd (fun _ hu => by cases hu),
      List.map_map]
    exact List.mem_map.mpr ⟨r, List.mem_filter.mpr ⟨hr, by simp [inYear, h]⟩, rfl⟩

/-- Witness for `year_filter_is_local`: the instant `-1` (a UTC moment
before the year boundary, i.e. in the prior year in UTC) whose LOCAL
projection falls in 2023 is kept. -/
theorem year_filter_is_local_witness :
    ((-1 : Int) ∈
        (processWindow locDistinct 2023 none [⟨-1, 1⟩]).map PricePoint.utc ↔
      (locDistinct (-1)).year = 2023) ∧
    (-1 : Int) ∈ (processWindow locDistinct 2023 none [⟨-1, 1⟩]).map PricePoint.utc := by
  have h := year_filter_is_local locDistinct 2023 [⟨-1, 1⟩] ⟨-1, 1⟩ (by decide) (by decide)
  exact ⟨h, h.mpr (by decide)⟩

/-! ## C8: price conversion -/

/-- Rounding an integer (already-exact) value changes nothing. -/
theorem roundHalfEven_intCast (m : Int) : roundHalfEven ((m : Rat)) = m := by
  have hf : ((m : Rat)).floor = m := by simp [Rat.floor_def']
  rw [roundHalfEven, hf]
  norm_num

/-- One decimal of rounding is reached after a single application:
`roundTo1` is idempotent. -/
theorem roundTo1_idem (x : Rat) : roundTo1 (roundTo1 x) = roundTo1 x := by
  rw [roundTo1, roundTo1, div_mul_cancel₀ _ (by norm_num : (10 : Rat) ≠ 0),
    roundHalfEven_intCast]

/-- C8: every emitted price is `round(price_kwh * 1000, 1)` applied to
the raw EUR/kWh value of the record it came from, and the conversion is
a deterministic (and idempotent) function of its input. -/
theorem price_conversion_formula :
    (∀ (loc : Int → LocalTs) (year : Int) (w : List RawRecord) (last : Option Int)
        (p : PricePoint), p ∈ processWindow loc year last w →
      (p.utc, p.price) ∈ w.map (fun r => (r.utc, roundTo1 (r.price * 1000)))) ∧
    (∀ x y : Rat, x = y → roundTo1 (x * 1000) = roundTo1 (y * 1000)) ∧
    (∀ x : Rat, roundTo1 (roundTo1 x) = roundTo1 x) := by
  refine ⟨?_, ?_, roundTo1_idem⟩
  · intro loc year w last p hp
    obtain ⟨r, hr, _, hpr⟩ := mem_processWindow loc year w last p hp
    refine List.mem_map.mpr ⟨r, hr, ?_⟩
    rw [hpr]
    rfl
  · intro x y h
    rw [h]

/-- Witness for `price_conversion_formula`: the record with price
`0.1` EUR/kWh is emitted with price `roundTo1 (0.1 * 1000)`. -/
theorem price_conversion_formula_witness :
    ((toPoint locDistinct ⟨3, 1/10⟩).utc, (toPoint locDistinct ⟨3, 1/10⟩).price) ∈
      ([⟨3, 1/10⟩] : List RawRecord).map (fun r => (r.utc, roundTo1 (r.price * 1000))) ∧
    roundTo1 ((1/10 : Rat) * 1000) = roundTo1 ((1/10 : Rat) * 1000) :=
  ⟨price_conversion_formula.1 locDistinct 2023 [⟨3, 1/10⟩] none
      (toPoint locDistinct ⟨3, 1/10⟩) (List.Mem.head _),
   price_conversion_formula.2.1 (1/10) (1/10) rfl⟩

/-! ## C9: fatal argument parsing -/

/-- The argument loop fails as a whole as soon as any argument is
unparseable. -/
theorem parseYearArgs_eq_none (parse : String → Option Int) :
    ∀ (args : List String) (a : String), a ∈ args → parse a = none →
      parseYearArgs parse args = none := by
  intro args
  induction args with
  | nil => intro a ha _; cases ha
  | cons b bs ih =>
    intro a ha hp
    rcases List.mem_cons.mp ha with h | h
    · subst h
      simp [parseYearArgs, hp]
    · rw [parseYearArgs]
      cases hb : parse b with
      | none => rfl
      | some y => rw [ih a h hp]

/-- C9: an argument list containing any token that does not parse as an
integer makes `main` terminate with the fatal parse error, before any
per-year pipeline runs and before any file write — for every fetch
behaviour and every mix of parseable and unparseable tokens. -/
theorem parse_error_aborts (parse : String → Option Int)
    (fetch : Int → Option YearSeries) (args : List String) (a : String)
    (ha : a ∈ args) (hp : parse a = none) :
    mainModel parse fetch args = BatchResult.parseError := by
  have hne : args.isEmpty = false := by
    cases args with
    | nil => cases ha
    | cons b bs => rfl
  have hparse : parseYearArgs parse args = none := parseYearArgs_eq_none parse args a ha hp
  simp [mainModel, hne, hparse]

/-- Witness for `parse_error_aborts`: `["2023", "zzzz"]` is fatal even
though its first argument is a valid year and the fetch would
succeed for every year. -/
theorem parse_error_aborts_witness :
    mainModel (fun s => if s = "2023" then some 2023 else none)
      (fun y => some (mkSeries y [])) ["2023", "zzzz"] = BatchResult.parseError :=
  parse_error_aborts (fun s => if s = "2023" then some 2023 else none)
    (fun y => some (mkSeries y [])) ["2023", "zzzz"] "zzzz" (by decide) (by decide)

/-! ## C10: batch order -/

/-- C10: the driver visits the requested years in ascending order via
`sorted(years)`: the visit sequence (and hence the whole write list)
is invariant under permutations of the argument order, it is sorted
ascending, and each year occurs in it exactly as often as it was
given — duplicate arguments are attempted once per occurrence. -/
theorem batch_order_is_multiset (fetch : Int → Option YearSeries)
    (ys zs : List Int) (h : ys.Perm zs) :
    runBatch fetch ys = runBatch fetch zs ∧
    List.Sorted (fun a b : Int => a ≤ b) (processOrder ys) ∧
    ∀ y : Int, (processOrder ys).count y = ys.count y := by
  have hsort : processOrder ys = processOrder zs :=
    List.eq_of_perm_of_sorted (r := fun a b : Int => a ≤ b)
      (((List.perm_insertionSort _ ys).trans h).trans
        (List.perm_insertionSort _ zs).symm)
      (List.sorted_insertionSort _ ys) (List.sorted_insertionSort _ zs)
  refine ⟨by rw [runBatch, runBatch, hsort], List.sorted_insertionSort _ ys,
    fun y => (List.perm_insertionSort _ ys).count_eq y⟩

/-- Witness for `batch_order_is_multiset`: `[2024, 2023, 2024]` and
`[2023, 2024, 2024]` produce the same write list; the visit order is
sorted, and the duplicated year 2024 is visited twice. -/
theorem batch_order_is_multiset_witness :
    runBatch (fun y => some (mkSeries y [])) [2024, 2023, 2024] =
      runBatch (fun y => some (mkSeries y [])) [2023, 2024, 2024] ∧
    List.Sorted (fun a b : Int => a ≤ b) (processOrder [2024, 2023, 2024]) ∧
    (processOrder [2024, 2023, 2024]).count 2024 =
      ([2024, 2023, 2024] : List Int).count 2024 := by
  have h := batch_order_is_multiset (fun y => some (mkSeries y []))
    [2024, 2023, 2024] [2023, 2024, 2024] (by decide)
  exact ⟨h.1, h.2.1, h.2.2 2024⟩
